import Mathlib

/-!
# Verification of the PSS_Projekt bank node (src/PSS_Projekt/bank_node.py)

A shallow embedding of the bank node's ledger (`BankData`) and of its
protocol dispatcher (`BankServer.process_command` together with
`BankServer.parse_account_spec` and the helper `is_valid_ip`), with
theorems settling the specification claims.

Modelling conventions:
* Python integers are `Int` (they are unbounded in the source).
* The `accounts` dict maps `str(account_number)` to a balance.  Every key
  the program ever writes is the decimal rendering of an integer, and
  `str` is injective on integers, so the dict is embedded as an
  association list `List (Int × Int)` with Python-dict semantics:
  updating an existing key keeps its position, inserting a new key
  appends, deleting removes the key.
* `save`/`load` exchange a record with fields `last_account` and
  `accounts`; a field absent from the file is an `Option` that is `none`.
* Each ledger operation returns its Python return value, the state after
  the call, and whether `self.save()` was executed during the call.
* String routines (`int()`, `str.upper()`, `str.split()`, `re` digits)
  are modelled on ASCII text, which covers every token the protocol
  documents.
-/

namespace BankNode

/-- Python's whitespace characters on ASCII text (`str.strip`,
no-argument `str.split`). -/
def pyWS (c : Char) : Bool :=
  c == ' ' || c == '\t' || c == '\n' || c == '\r' || c == '\x0b' || c == '\x0c'

/-- Strip leading and trailing whitespace, as Python `str.strip()`. -/
def trimChars (cs : List Char) : List Char :=
  ((cs.dropWhile pyWS).reverse.dropWhile pyWS).reverse

/-- Split a character list at every character satisfying `p`, keeping
empty fields, as Python `str.split(sep)` does. -/
def splitBy (p : Char → Bool) : List Char → List (List Char)
  | [] => [[]]
  | c :: rest =>
    if p c then [] :: splitBy p rest
    else
      match splitBy p rest with
      | g :: gs => (c :: g) :: gs
      | [] => [[c]]

/-- Python `str.split(sep)` for a single-character separator. -/
def pySplitChar (s : String) (sep : Char) : List String :=
  (splitBy (fun c => c == sep) s.data).map String.mk

/-- Python ASCII `str.upper()` on one character. -/
def upperChar (c : Char) : Char :=
  if 'a' ≤ c ∧ c ≤ 'z' then Char.ofNat (c.toNat - 32) else c

/-- Python ASCII `str.upper()`. -/
def pyUpper (s : String) : String := String.mk (s.data.map upperChar)

/-- Digits of `n`, least significant first consumed, accumulated in
front of `acc`; `fuel` bounds the recursion and `n + 1` always
suffices. -/
def natDigitsAux : Nat → Nat → List Char → List Char
  | 0, _, acc => acc
  | fuel + 1, n, acc =>
    let acc' := Nat.digitChar (n % 10) :: acc
    if n / 10 = 0 then acc' else natDigitsAux fuel (n / 10) acc'

/-- Characters of the decimal rendering of a natural number, as produced
by Python `str` on a non-negative integer. -/
def natDigits (n : Nat) : List Char := natDigitsAux (n + 1) n []

/-- Decimal rendering of a natural number. -/
def natStr (n : Nat) : String := String.mk (natDigits n)

/-- Python `str` on an integer. -/
def intStr (i : Int) : String :=
  if i < 0 then String.mk ('-' :: natDigits i.natAbs) else natStr i.natAbs

/-- Python `str` on an `Optional[int]`: `str(None)` is `"None"`. -/
def pyStrOptInt : Option Int → String
  | none => "None"
  | some i => intStr i

/-- Value of a list of decimal digit characters. -/
def digitsToNat (cs : List Char) : Nat :=
  cs.foldl (fun acc c => 10 * acc + (c.toNat - 48)) 0

/-- Grammar of the digit part accepted by Python `int()` after the first
digit: digits with single underscores allowed between digits. -/
def pyIntTail : List Char → Bool
  | [] => true
  | '_' :: c :: rest => c.isDigit && pyIntTail rest
  | c :: rest => c.isDigit && pyIntTail rest

/-- Grammar of the digit part accepted by Python `int()`: at least one
digit, single underscores allowed only between digits. -/
def pyIntDigitsOk : List Char → Bool
  | [] => false
  | c :: rest => c.isDigit && pyIntTail rest

/-- Python `int(s)` on an ASCII string: strips surrounding whitespace,
accepts an optional sign followed by digits with single underscores
between digits; anything else raises, modelled as `none`. -/
def pyInt (s : String) : Option Int :=
  let cs := trimChars s.data
  match cs with
  | '+' :: rest =>
    if pyIntDigitsOk rest then
      some (Int.ofNat (digitsToNat (rest.filter (fun c => c ≠ '_'))))
    else none
  | '-' :: rest =>
    if pyIntDigitsOk rest then
      some (-(Int.ofNat (digitsToNat (rest.filter (fun c => c ≠ '_')))))
    else none
  | rest =>
    if pyIntDigitsOk rest then
      some (Int.ofNat (digitsToNat (rest.filter (fun c => c ≠ '_'))))
    else none

/-- `is_valid_ip` from the source: the regex
`^\d{1,3}(\.\d{1,3}){3}$` demands exactly four groups of one to three
digits separated by dots, and every group's value must lie in 0..255. -/
def is_valid_ip (ip : String) : Bool :=
  let parts := splitBy (fun c => c == '.') ip.data
  parts.length = 4 &&
    parts.all (fun p => 1 ≤ p.length && p.length ≤ 3 &&
      p.all Char.isDigit) &&
    parts.all (fun p => digitsToNat p ≤ 255)

/-- Python-dict lookup on the association-list embedding. -/
def dictGet : List (Int × Int) → Int → Option Int
  | [], _ => none
  | (k0, v0) :: rest, k => if k0 = k then some v0 else dictGet rest k

/-- Python-dict update/insert: an existing key keeps its position, a new
key is appended. -/
def dictSet : List (Int × Int) → Int → Int → List (Int × Int)
  | [], k, v => [(k, v)]
  | (k0, v0) :: rest, k, v =>
    if k0 = k then (k0, v) :: rest else (k0, v0) :: dictSet rest k v

/-- Python-dict `del`: removes the key (dict keys are unique, so removing
every occurrence is exact). -/
def dictErase : List (Int × Int) → Int → List (Int × Int)
  | [], _ => []
  | (k0, v0) :: rest, k =>
    if k0 = k then dictErase rest k else (k0, v0) :: dictErase rest k

/-- In-memory state of `BankData`: the `last_account` counter and the
`accounts` dict. -/
structure BankData where
  last_account : Int
  accounts : List (Int × Int)
deriving DecidableEq, Repr

/-- The state `BankData.__init__` builds when no data file exists:
counter 9999, no accounts. -/
def initialBank : BankData := ⟨9999, []⟩

/-- Result of one ledger call: the Python return value, the state after
the call, and whether `self.save()` ran during the call. -/
structure BankResult (α : Type) where
  ret : α
  state : BankData
  saved : Bool
deriving DecidableEq, Repr

/-- `BankData.create_account`: refuses once `last_account` has reached
99999, otherwise increments the counter, inserts a zero-balance account
under the new number, saves, and returns the number. -/
def BankData.create_account (b : BankData) :
    BankResult (Option Int × Option String) :=
  if b.last_account ≥ 99999 then
    ⟨(none, some "Naše banka nyní neumožňuje založení nového účtu."),
      b, false⟩
  else
    let n := b.last_account + 1
    ⟨(some n, none), ⟨n, dictSet b.accounts n 0⟩, true⟩

/-- `BankData.deposit`: unknown account is an error, otherwise the amount
is added to the balance and the state saved. -/
def BankData.deposit (b : BankData) (account_number amount : Int) :
    BankResult (Option String) :=
  match dictGet b.accounts account_number with
  | none => ⟨some "Bankovní účet neexistuje.", b, false⟩
  | some bal =>
    ⟨none, ⟨b.last_account, dictSet b.accounts account_number (bal + amount)⟩,
      true⟩

/-- `BankData.withdraw`: unknown account is an error, a balance below the
amount is an error, otherwise the amount is subtracted and the state
saved. -/
def BankData.withdraw (b : BankData) (account_number amount : Int) :
    BankResult (Option String) :=
  match dictGet b.accounts account_number with
  | none => ⟨some "Bankovní účet neexistuje.", b, false⟩
  | some bal =>
    if bal < amount then
      ⟨some "Není dostatek finančních prostředků.", b, false⟩
    else
      ⟨none,
        ⟨b.last_account, dictSet b.accounts account_number (bal - amount)⟩,
        true⟩

/-- `BankData.get_balance`: dict lookup, `None` when absent. -/
def BankData.get_balance (b : BankData) (account_number : Int) : Option Int :=
  dictGet b.accounts account_number

/-- `BankData.remove_account`: unknown account is an error, a nonzero
balance is an error, otherwise the account is deleted and the state
saved. -/
def BankData.remove_account (b : BankData) (account_number : Int) :
    BankResult (Option String) :=
  match dictGet b.accounts account_number with
  | none => ⟨some "Bankovní účet neexistuje.", b, false⟩
  | some bal =>
    if bal ≠ 0 then
      ⟨some "Nelze smazat bankovní účet na kterém jsou finance.", b, false⟩
    else
      ⟨none, ⟨b.last_account, dictErase b.accounts account_number⟩, true⟩

/-- `BankData.total_amount`: sum of all balances. -/
def BankData.total_amount (b : BankData) : Int :=
  (b.accounts.map (fun p => p.2)).sum

/-- `BankData.number_of_clients`: number of accounts. -/
def BankData.number_of_clients (b : BankData) : Nat :=
  b.accounts.length

/-- The record `BankData.save` serializes: `last_account` and `accounts`.
A field is `Option` so that a file missing it can be expressed on the
`load` side. -/
structure StoredData where
  last_account : Option Int
  accounts : Option (List (Int × Int))
deriving DecidableEq, Repr

/-- `BankData.save`: writes both fields of the current state. -/
def BankData.save (b : BankData) : StoredData :=
  ⟨some b.last_account, some b.accounts⟩

/-- `BankData.load` on a readable file: `data.get("last_account", 9999)`
and `data.get("accounts", {})`. -/
def loadStored (d : StoredData) : BankData :=
  ⟨d.last_account.getD 9999, d.accounts.getD []⟩

/-- One line of the dispatcher's reply together with the ledger state it
leaves behind and whether a save was performed while producing it. -/
structure CmdResult where
  resp : String
  state : BankData
  saved : Bool
deriving DecidableEq, Repr

/-- `BankServer.parse_account_spec`: split on `/` into exactly two
parts, the first must be an integer in 10000..99999, the second a valid
dotted-quad; on success returns the pair, otherwise the error text. -/
def parse_account_spec (spec : String) : Except String (Int × String) :=
  let parts := pySplitChar spec '/'
  match parts with
  | [account_str, ip] =>
    match pyInt account_str with
    | none => .error "Formát čísla účtu není správný."
    | some account_number =>
      if account_number < 10000 || account_number > 99999 then
        .error "Formát čísla účtu není správný."
      else if !(is_valid_ip ip) then
        .error "Formát IP adresy není správný."
      else .ok (account_number, ip)
  | _ => .error "Formát čísla účtu není správný."

/-- `command_line.split()` from `process_command`: Python's no-argument
split discards empty fields. -/
def tokensOf (line : String) : List String :=
  ((splitBy pyWS line.data).filter (fun t => t ≠ [])).map String.mk

/-- Body of `BankServer.process_command` after tokenisation, acting on
the token list.  Each verb checks its token count first, then (for
AD/AW/AB/AR) parses the account spec, compares the IP part with the
bank's own address, and only then touches the ledger. -/
def dispatchTokens (bank_ip : String) (b : BankData)
    (tokens : List String) : CmdResult :=
  match tokens with
  | [] => ⟨"ER Prázdný příkaz.", b, false⟩
  | t0 :: rest =>
    let cmd := pyUpper t0
    if cmd = "BC" then
      match rest with
      | [] => ⟨"BC " ++ bank_ip, b, false⟩
      | _ => ⟨"ER Příkaz BC má špatný formát.", b, false⟩
    else if cmd = "AC" then
      match rest with
      | [] =>
        let r := b.create_account
        match r.ret.2 with
        | some err => ⟨"ER " ++ err, r.state, r.saved⟩
        | none =>
          ⟨"AC " ++ pyStrOptInt r.ret.1 ++ "/" ++ bank_ip, r.state, r.saved⟩
      | _ => ⟨"ER Příkaz AC má špatný formát.", b, false⟩
    else if cmd = "AD" then
      match rest with
      | [account_spec, amount_str] =>
        match parse_account_spec account_spec with
        | .error err => ⟨"ER " ++ err, b, false⟩
        | .ok (account_number, ip_part) =>
          if ip_part ≠ bank_ip then ⟨"ER Banka neodpovídá.", b, false⟩
          else
            match pyInt amount_str with
            | none =>
              ⟨"ER číslo bankovního účtu a částka není ve správném formátu.",
                b, false⟩
            | some amount =>
              if amount < 0 then
                ⟨"ER číslo bankovního účtu a částka není ve správném formátu.",
                  b, false⟩
              else
                let r := b.deposit account_number amount
                match r.ret with
                | some err => ⟨"ER " ++ err, r.state, r.saved⟩
                | none => ⟨"AD", r.state, r.saved⟩
      | _ => ⟨"ER Příkaz AD má špatný formát.", b, false⟩
    else if cmd = "AW" then
      match rest with
      | [account_spec, amount_str] =>
        match parse_account_spec account_spec with
        | .error err => ⟨"ER " ++ err, b, false⟩
        | .ok (account_number, ip_part) =>
          if ip_part ≠ bank_ip then ⟨"ER Banka neodpovídá.", b, false⟩
          else
            match pyInt amount_str with
            | none =>
              ⟨"ER číslo bankovního účtu a částka není ve správném formátu.",
                b, false⟩
            | some amount =>
              if amount < 0 then
                ⟨"ER číslo bankovního účtu a částka není ve správném formátu.",
                  b, false⟩
              else
                let r := b.withdraw account_number amount
                match r.ret with
                | some err => ⟨"ER " ++ err, r.state, r.saved⟩
                | none => ⟨"AW", r.state, r.saved⟩
      | _ => ⟨"ER Příkaz AW má špatný formát.", b, false⟩
    else if cmd = "AB" then
      match rest with
      | [account_spec] =>
        match parse_account_spec account_spec with
        | .error err => ⟨"ER " ++ err, b, false⟩
        | .ok (account_number, ip_part) =>
          if ip_part ≠ bank_ip then ⟨"ER Banka neodpovídá.", b, false⟩
          else
            match b.get_balance account_number with
            | none => ⟨"ER Bankovní účet neexistuje.", b, false⟩
            | some balance => ⟨"AB " ++ intStr balance, b, false⟩
      | _ => ⟨"ER Příkaz AB má špatný formát.", b, false⟩
    else if cmd = "AR" then
      match rest with
      | [account_spec] =>
        match parse_account_spec account_spec with
        | .error err => ⟨"ER " ++ err, b, false⟩
        | .ok (account_number, ip_part) =>
          if ip_part ≠ bank_ip then ⟨"ER Banka neodpovídá.", b, false⟩
          else
            let r := b.remove_account account_number
            match r.ret with
            | some err => ⟨"ER " ++ err, r.state, r.saved⟩
            | none => ⟨"AR", r.state, r.saved⟩
      | _ => ⟨"ER Příkaz AR má špatný formát.", b, false⟩
    else if cmd = "BA" then
      match rest with
      | [] => ⟨"BA " ++ intStr b.total_amount, b, false⟩
      | _ => ⟨"ER Příkaz BA má špatný formát.", b, false⟩
    else if cmd = "BN" then
      match rest with
      | [] => ⟨"BN " ++ natStr b.number_of_clients, b, false⟩
      | _ => ⟨"ER Příkaz BN má špatný formát.", b, false⟩
    else ⟨"ER Neznámý příkaz.", b, false⟩

/-- `BankServer.process_command`: tokenise the line, then dispatch. -/
def process_command (bank_ip : String) (b : BankData)
    (command_line : String) : CmdResult :=
  dispatchTokens bank_ip b (tokensOf command_line)

/-! ### Sequences of ledger calls

The claims quantify over arbitrary sequences of mutating ledger calls;
`LedgerOp` names one call with its arguments, `runOps` executes a
sequence, and `createsAlong` collects the account numbers returned by
the successful `create_account` calls of a sequence, in issuance
order. -/

/-- One mutating ledger call. -/
inductive LedgerOp where
  | create : LedgerOp
  | deposit (account_number amount : Int) : LedgerOp
  | withdraw (account_number amount : Int) : LedgerOp
  | remove (account_number : Int) : LedgerOp
deriving DecidableEq, Repr

/-- The state after one ledger call. -/
def applyOp (b : BankData) : LedgerOp → BankData
  | .create => b.create_account.state
  | .deposit n a => (b.deposit n a).state
  | .withdraw n a => (b.withdraw n a).state
  | .remove n => (b.remove_account n).state

/-- The state after a sequence of ledger calls. -/
def runOps (b : BankData) : List LedgerOp → BankData
  | [] => b
  | op :: ops => runOps (applyOp b op) ops

/-- Account numbers returned by the successful `create_account` calls
of a sequence, in issuance order. -/
def createsAlong (b : BankData) : List LedgerOp → List Int
  | [] => []
  | .create :: ops =>
    (match b.create_account.ret.1 with
     | some n => [n]
     | none => []) ++ createsAlong b.create_account.state ops
  | op :: ops => createsAlong (applyOp b op) ops

/-- The call's amount argument, if it has one, is non-negative, as the
dispatcher guarantees for the amounts it passes to the ledger. -/
def opAmountNonneg : LedgerOp → Bool
  | .deposit _ a => decide (0 ≤ a)
  | .withdraw _ a => decide (0 ≤ a)
  | _ => true

/-- Every deposit and withdrawal amount in the sequence is
non-negative. -/
def nonnegAmounts (ops : List LedgerOp) : Bool := ops.all opAmountNonneg

/-- Every account number on file is at most the issue counter; this
holds in the fresh state and is preserved by every ledger call. -/
def KeysBound (b : BankData) : Prop :=
  ∀ p ∈ b.accounts, p.1 ≤ b.last_account

/-- All balances on file are non-negative. -/
def BalancesNonneg (b : BankData) : Prop :=
  ∀ p ∈ b.accounts, 0 ≤ p.2

/-- The input situations claim C6 describes: a known verb with a wrong
token count, or (for AD/AW/AB/AR with the right count) an account spec
`parse_account_spec` rejects, or a spec whose IP part differs from the
node's own address. -/
def rejectedBeforeLedger (bank_ip : String) (tokens : List String) : Bool :=
  match tokens with
  | [] => false
  | t0 :: rest =>
    let cmd := pyUpper t0
    if cmd = "BC" || cmd = "AC" || cmd = "BA" || cmd = "BN" then
      !rest.isEmpty
    else if cmd = "AD" || cmd = "AW" then
      match rest with
      | [spec, _] =>
        (match parse_account_spec spec with
         | .error _ => true
         | .ok (_, ip_part) => ip_part != bank_ip)
      | _ => true
    else if cmd = "AB" || cmd = "AR" then
      match rest with
      | [spec] =>
        (match parse_account_spec spec with
         | .error _ => true
         | .ok (_, ip_part) => ip_part != bank_ip)
      | _ => true
    else false

/-- The shapes of the dispatcher's non-error responses: the verb echo,
possibly followed by a payload. -/
def successForm (bank_ip resp : String) : Prop :=
  resp = "AD" ∨ resp = "AW" ∨ resp = "AR" ∨ resp = "BC " ++ bank_ip ∨
  (∃ i, resp = "AC " ++ pyStrOptInt i ++ "/" ++ bank_ip) ∨
  (∃ i, resp = "AB " ++ intStr i) ∨
  (∃ i, resp = "BA " ++ intStr i) ∨
  (∃ k, resp = "BN " ++ natStr k)

/-! ### Association-list (Python dict) lemmas -/

theorem dictGet_dictSet_self (m : List (Int × Int)) (k v : Int) :
    dictGet (dictSet m k v) k = some v := by
  induction m with
  | nil => simp [dictSet, dictGet]
  | cons p rest ih =>
    obtain ⟨k0, v0⟩ := p
    by_cases h : k0 = k
    · simp [dictSet, dictGet, h]
    · simp [dictSet, dictGet, h, ih]

theorem dictGet_dictSet_ne (m : List (Int × Int)) (k v k' : Int)
    (h : k' ≠ k) : dictGet (dictSet m k v) k' = dictGet m k' := by
  have hk : k ≠ k' := fun he => h he.symm
  induction m with
  | nil => simp [dictSet, dictGet, hk]
  | cons p rest ih =>
    obtain ⟨k0, v0⟩ := p
    by_cases h0 : k0 = k
    · subst h0
      simp [dictSet, dictGet, hk]
    · simp [dictSet, dictGet, h0, ih]

theorem dictGet_some_mem (m : List (Int × Int)) (k v : Int)
    (h : dictGet m k = some v) : (k, v) ∈ m := by
  induction m with
  | nil => simp [dictGet] at h
  | cons p rest ih =>
    obtain ⟨k0, v0⟩ := p
    by_cases h0 : k0 = k
    · subst h0
      simp [dictGet] at h
      simp [h]
    · simp [dictGet, h0] at h
      exact List.mem_cons_of_mem _ (ih h)

theorem mem_dictSet (m : List (Int × Int)) (k v : Int) (p : Int × Int)
    (h : p ∈ dictSet m k v) : p = (k, v) ∨ p ∈ m := by
  induction m with
  | nil => simpa [dictSet] using h
  | cons q rest ih =>
    obtain ⟨k0, v0⟩ := q
    by_cases h0 : k0 = k
    · subst h0
      simp [dictSet] at h
      rcases h with h | h
      · exact Or.inl (by simp [h])
      · exact Or.inr (List.mem_cons_of_mem _ h)
    · simp [dictSet, h0] at h
      rcases h with h | h
      · exact Or.inr (by simp [h])
      · rcases ih h with h' | h'
        · exact Or.inl h'
        · exact Or.inr (List.mem_cons_of_mem _ h')

theorem mem_dictErase (m : List (Int × Int)) (k : Int) (p : Int × Int)
    (h : p ∈ dictErase m k) : p ∈ m := by
  induction m with
  | nil => simp [dictErase] at h
  | cons q rest ih =>
    obtain ⟨k0, v0⟩ := q
    by_cases h0 : k0 = k
    · simp [dictErase, h0] at h
      exact List.mem_cons_of_mem _ (ih h)
    · simp [dictErase, h0] at h
      rcases h with h | h
      · simp [h]
      · exact List.mem_cons_of_mem _ (ih h)

theorem dictGet_dictErase_self (m : List (Int × Int)) (k : Int) :
    dictGet (dictErase m k) k = none := by
  induction m with
  | nil => simp [dictErase, dictGet]
  | cons q rest ih =>
    obtain ⟨k0, v0⟩ := q
    by_cases h0 : k0 = k
    · simp [dictErase, h0, ih]
    · simp [dictErase, dictGet, h0, ih]

/-! ### Decimal rendering lemmas -/

theorem data_append (s t : String) : (s ++ t).data = s.data ++ t.data := by
  cases s
  cases t
  rfl

theorem digitChar_isDigit (m : Nat) (h : m < 10) :
    (Nat.digitChar m).isDigit = true := by
  interval_cases m <;> decide

theorem natDigitsAux_isDigit (fuel : Nat) :
    ∀ n acc, (∀ c ∈ acc, c.isDigit = true) →
      ∀ c ∈ natDigitsAux fuel n acc, c.isDigit = true := by
  induction fuel with
  | zero => intro n acc hacc c hc; exact hacc c hc
  | succ f ih =>
    intro n acc hacc c hc
    have hacc' : ∀ d ∈ Nat.digitChar (n % 10) :: acc, d.isDigit = true := by
      intro d hd
      rcases List.mem_cons.mp hd with h | h
      · subst h; exact digitChar_isDigit _ (Nat.mod_lt _ (by omega))
      · exact hacc d h
    simp only [natDigitsAux] at hc
    split at hc
    · exact hacc' c hc
    · exact ih _ _ hacc' c hc

theorem natStr_isDigit (n : Nat) : ∀ c ∈ (natStr n).data, c.isDigit = true :=
  natDigitsAux_isDigit (n + 1) n [] (by simp)

theorem natStr_no_newline (n : Nat) : '\n' ∉ (natStr n).data := by
  intro h
  have := natStr_isDigit n _ h
  simp at this

theorem intStr_no_newline (i : Int) : '\n' ∉ (intStr i).data := by
  unfold intStr
  split
  · intro h
    rcases List.mem_cons.mp h with h | h
    · simp at h
    · have := natDigitsAux_isDigit (i.natAbs + 1) i.natAbs [] (by simp) _ h
      simp at this
  · exact natStr_no_newline _

theorem pyStrOptInt_no_newline (o : Option Int) :
    '\n' ∉ (pyStrOptInt o).data := by
  cases o with
  | none => decide
  | some i => exact intStr_no_newline i

/-! ### Single ledger-call lemmas -/

theorem create_account_of_ge (b : BankData) (h : 99999 ≤ b.last_account) :
    b.create_account =
      ⟨(none, some "Naše banka nyní neumožňuje založení nového účtu."),
        b, false⟩ := by
  simp [BankData.create_account, h]

theorem create_account_of_lt (b : BankData) (h : b.last_account < 99999) :
    b.create_account =
      ⟨(some (b.last_account + 1), none),
        ⟨b.last_account + 1, dictSet b.accounts (b.last_account + 1) 0⟩,
        true⟩ := by
  have h' : ¬ (b.last_account ≥ 99999) := by omega
  simp [BankData.create_account, h']

theorem deposit_of_none (b : BankData) (n a : Int)
    (h : dictGet b.accounts n = none) :
    b.deposit n a = ⟨some "Bankovní účet neexistuje.", b, false⟩ := by
  simp [BankData.deposit, h]

theorem deposit_of_some (b : BankData) (n a bal : Int)
    (h : dictGet b.accounts n = some bal) :
    b.deposit n a =
      ⟨none, ⟨b.last_account, dictSet b.accounts n (bal + a)⟩, true⟩ := by
  simp [BankData.deposit, h]

theorem withdraw_of_none (b : BankData) (n a : Int)
    (h : dictGet b.accounts n = none) :
    b.withdraw n a = ⟨some "Bankovní účet neexistuje.", b, false⟩ := by
  simp [BankData.withdraw, h]

theorem withdraw_of_lt (b : BankData) (n a bal : Int)
    (h : dictGet b.accounts n = some bal) (hlt : bal < a) :
    b.withdraw n a =
      ⟨some "Není dostatek finančních prostředků.", b, false⟩ := by
  simp [BankData.withdraw, h, hlt]

theorem withdraw_of_le (b : BankData) (n a bal : Int)
    (h : dictGet b.accounts n = some bal) (hle : a ≤ bal) :
    b.withdraw n a =
      ⟨none, ⟨b.last_account, dictSet b.accounts n (bal - a)⟩, true⟩ := by
  have hlt : ¬ (bal < a) := by omega
  simp [BankData.withdraw, h, hlt]

theorem remove_of_none (b : BankData) (n : Int)
    (h : dictGet b.accounts n = none) :
    b.remove_account n = ⟨some "Bankovní účet neexistuje.", b, false⟩ := by
  simp [BankData.remove_account, h]

theorem remove_of_nonzero (b : BankData) (n bal : Int)
    (h : dictGet b.accounts n = some bal) (hbal : bal ≠ 0) :
    b.remove_account n =
      ⟨some "Nelze smazat bankovní účet na kterém jsou finance.", b,
        false⟩ := by
  simp [BankData.remove_account, h, hbal]

theorem remove_of_zero (b : BankData) (n : Int)
    (h : dictGet b.accounts n = some 0) :
    b.remove_account n =
      ⟨none, ⟨b.last_account, dictErase b.accounts n⟩, true⟩ := by
  simp [BankData.remove_account, h]

/-! ### Trace lemmas -/

theorem applyOp_last (b : BankData) (op : LedgerOp) :
    (applyOp b op).last_account = b.last_account ∨
      ((applyOp b op).last_account = b.last_account + 1 ∧
        b.last_account < 99999) := by
  cases op with
  | create =>
    by_cases h : 99999 ≤ b.last_account
    · left; simp [applyOp, create_account_of_ge b h]
    · right
      have hlt : b.last_account < 99999 := by omega
      simp [applyOp, create_account_of_lt b hlt, hlt]
  | deposit n a =>
    rcases hd : dictGet b.accounts n with _ | bal
    · left; simp [applyOp, deposit_of_none b n a hd]
    · left; simp [applyOp, deposit_of_some b n a bal hd]
  | withdraw n a =>
    rcases hd : dictGet b.accounts n with _ | bal
    · left; simp [applyOp, withdraw_of_none b n a hd]
    · by_cases hlt : bal < a
      · left; simp [applyOp, withdraw_of_lt b n a bal hd hlt]
      · left; simp [applyOp, withdraw_of_le b n a bal hd (by omega)]
  | remove n =>
    rcases hd : dictGet b.accounts n with _ | bal
    · left; simp [applyOp, remove_of_none b n hd]
    · by_cases hz : bal = 0
      · subst hz; left; simp [applyOp, remove_of_zero b n hd]
      · left; simp [applyOp, remove_of_nonzero b n bal hd hz]

theorem applyOp_last_le (b : BankData) (op : LedgerOp) :
    b.last_account ≤ (applyOp b op).last_account := by
  rcases applyOp_last b op with h | ⟨h, _⟩ <;> omega

theorem applyOp_last_le99999 (b : BankData) (op : LedgerOp)
    (h : b.last_account ≤ 99999) : (applyOp b op).last_account ≤ 99999 := by
  rcases applyOp_last b op with h' | ⟨h', h''⟩ <;> omega

theorem runOps_last_le (ops : List LedgerOp) :
    ∀ b : BankData, b.last_account ≤ (runOps b ops).last_account := by
  induction ops with
  | nil => intro b; simp [runOps]
  | cons op rest ih =>
    intro b
    calc b.last_account ≤ (applyOp b op).last_account := applyOp_last_le b op
      _ ≤ (runOps (applyOp b op) rest).last_account := ih _

theorem runOps_last_le99999 (ops : List LedgerOp) :
    ∀ b : BankData, b.last_account ≤ 99999 →
      (runOps b ops).last_account ≤ 99999 := by
  induction ops with
  | nil => intro b h; simpa [runOps] using h
  | cons op rest ih =>
    intro b h
    exact ih _ (applyOp_last_le99999 b op h)

theorem createsAlong_gt (ops : List LedgerOp) :
    ∀ (b : BankData) (n : Int), n ∈ createsAlong b ops →
      b.last_account < n := by
  induction ops with
  | nil => intro b n h; simp [createsAlong] at h
  | cons op rest ih =>
    intro b n h
    cases op with
    | create =>
      by_cases hc : 99999 ≤ b.last_account
      · rw [show createsAlong b (.create :: rest) =
            createsAlong b.create_account.state rest by simp [createsAlong,
              create_account_of_ge b hc]] at h
        rw [create_account_of_ge b hc] at h
        exact ih b n h
      · have hlt : b.last_account < 99999 := by omega
        simp only [createsAlong, create_account_of_lt b hlt,
          List.singleton_append, List.mem_cons] at h
        rcases h with h | h
        · omega
        · have := ih _ n h
          simp only at this
          omega
    | deposit m a =>
      have h' : n ∈ createsAlong (applyOp b (.deposit m a)) rest := by
        simpa [createsAlong, applyOp] using h
      have := ih _ n h'
      have := applyOp_last_le b (.deposit m a)
      omega
    | withdraw m a =>
      have h' : n ∈ createsAlong (applyOp b (.withdraw m a)) rest := by
        simpa [createsAlong, applyOp] using h
      have := ih _ n h'
      have := applyOp_last_le b (.withdraw m a)
      omega
    | remove m =>
      have h' : n ∈ createsAlong (applyOp b (.remove m)) rest := by
        simpa [createsAlong, applyOp] using h
      have := ih _ n h'
      have := applyOp_last_le b (.remove m)
      omega

theorem createsAlong_le (ops : List LedgerOp) :
    ∀ b : BankData, b.last_account ≤ 99999 →
      ∀ n ∈ createsAlong b ops, n ≤ 99999 := by
  induction ops with
  | nil => intro b _ n h; simp [createsAlong] at h
  | cons op rest ih =>
    intro b hb n h
    cases op with
    | create =>
      by_cases hc : 99999 ≤ b.last_account
      · rw [show createsAlong b (.create :: rest) =
            createsAlong b.create_account.state rest by simp [createsAlong,
              create_account_of_ge b hc]] at h
        rw [create_account_of_ge b hc] at h
        exact ih b hb n h
      · have hlt : b.last_account < 99999 := by omega
        simp only [createsAlong, create_account_of_lt b hlt,
          List.singleton_append, List.mem_cons] at h
        rcases h with h | h
        · omega
        · exact ih _ (by simp only; omega) n h
    | deposit m a =>
      have h' : n ∈ createsAlong (applyOp b (.deposit m a)) rest := by
        simpa [createsAlong, applyOp] using h
      exact ih _ (applyOp_last_le99999 b _ hb) n h'
    | withdraw m a =>
      have h' : n ∈ createsAlong (applyOp b (.withdraw m a)) rest := by
        simpa [createsAlong, applyOp] using h
      exact ih _ (applyOp_last_le99999 b _ hb) n h'
    | remove m =>
      have h' : n ∈ createsAlong (applyOp b (.remove m)) rest := by
        simpa [createsAlong, applyOp] using h
      exact ih _ (applyOp_last_le99999 b _ hb) n h'

theorem createsAlong_pairwise (ops : List LedgerOp) :
    ∀ b : BankData,
      List.Pairwise (fun m n => m < n) (createsAlong b ops) := by
  induction ops with
  | nil => intro b; simp [createsAlong]
  | cons op rest ih =>
    intro b
    cases op with
    | create =>
      by_cases hc : 99999 ≤ b.last_account
      · rw [show createsAlong b (.create :: rest) =
            createsAlong b.create_account.state rest by simp [createsAlong,
              create_account_of_ge b hc]]
        exact ih _
      · have hlt : b.last_account < 99999 := by omega
        simp only [createsAlong, create_account_of_lt b hlt,
          List.singleton_append, List.pairwise_cons]
        refine ⟨fun m hm => ?_, ih _⟩
        have := createsAlong_gt rest _ m hm
        simp only at this
        omega
    | deposit m a =>
      rw [show createsAlong b (.deposit m a :: rest) =
          createsAlong (applyOp b (.deposit m a)) rest by
            simp [createsAlong, applyOp]]
      exact ih _
    | withdraw m a =>
      rw [show createsAlong b (.withdraw m a :: rest) =
          createsAlong (applyOp b (.withdraw m a)) rest by
            simp [createsAlong, applyOp]]
      exact ih _
    | remove m =>
      rw [show createsAlong b (.remove m :: rest) =
          createsAlong (applyOp b (.remove m)) rest by
            simp [createsAlong, applyOp]]
      exact ih _

theorem applyOp_balancesNonneg (b : BankData) (op : LedgerOp)
    (hop : opAmountNonneg op = true) (hb : BalancesNonneg b) :
    BalancesNonneg (applyOp b op) := by
  cases op with
  | create =>
    by_cases hc : 99999 ≤ b.last_account
    · simpa [applyOp, create_account_of_ge b hc] using hb
    · have hlt : b.last_account < 99999 := by omega
      simp only [applyOp, create_account_of_lt b hlt]
      intro p hp
      rcases mem_dictSet _ _ _ _ hp with h | h
      · simp [h]
      · exact hb p h
  | deposit n a =>
    have ha : 0 ≤ a := by simpa [opAmountNonneg] using hop
    rcases hd : dictGet b.accounts n with _ | bal
    · simpa [applyOp, deposit_of_none b n a hd] using hb
    · have hbal : 0 ≤ bal := hb _ (dictGet_some_mem _ _ _ hd)
      simp only [applyOp, deposit_of_some b n a bal hd]
      intro p hp
      rcases mem_dictSet _ _ _ _ hp with h | h
      · simp [h]; omega
      · exact hb p h
  | withdraw n a =>
    rcases hd : dictGet b.accounts n with _ | bal
    · simpa [applyOp, withdraw_of_none b n a hd] using hb
    · by_cases hlt : bal < a
      · simpa [applyOp, withdraw_of_lt b n a bal hd hlt] using hb
      · simp only [applyOp, withdraw_of_le b n a bal hd (by omega)]
        intro p hp
        rcases mem_dictSet _ _ _ _ hp with h | h
        · simp [h]; omega
        · exact hb p h
  | remove n =>
    rcases hd : dictGet b.accounts n with _ | bal
    · simpa [applyOp, remove_of_none b n hd] using hb
    · by_cases hz : bal = 0
      · subst hz
        simp only [applyOp, remove_of_zero b n hd]
        intro p hp
        exact hb p (mem_dictErase _ _ _ hp)
      · simpa [applyOp, remove_of_nonzero b n bal hd hz] using hb

theorem runOps_balancesNonneg (ops : List LedgerOp) :
    ∀ b : BankData, nonnegAmounts ops = true → BalancesNonneg b →
      BalancesNonneg (runOps b ops) := by
  induction ops with
  | nil => intro b _ hb; simpa [runOps] using hb
  | cons op rest ih =>
    intro b hops hb
    have h1 : opAmountNonneg op = true ∧ nonnegAmounts rest = true := by
      simpa [nonnegAmounts] using hops
    exact ih _ h1.2 (applyOp_balancesNonneg b op h1.1 hb)

theorem applyOp_keysBound (b : BankData) (op : LedgerOp)
    (hb : KeysBound b) : KeysBound (applyOp b op) := by
  cases op with
  | create =>
    by_cases hc : 99999 ≤ b.last_account
    · simpa [applyOp, create_account_of_ge b hc] using hb
    · have hlt : b.last_account < 99999 := by omega
      simp only [applyOp, create_account_of_lt b hlt]
      intro p hp
      rcases mem_dictSet _ _ _ _ hp with h | h
      · simp [h]
      · have := hb p h
        simp only
        omega
  | deposit n a =>
    rcases hd : dictGet b.accounts n with _ | bal
    · simpa [applyOp, deposit_of_none b n a hd] using hb
    · simp only [applyOp, deposit_of_some b n a bal hd]
      intro p hp
      rcases mem_dictSet _ _ _ _ hp with h | h
      · have := hb _ (dictGet_some_mem _ _ _ hd)
        simp only at this ⊢
        simp [h]
        omega
      · exact hb p h
  | withdraw n a =>
    rcases hd : dictGet b.accounts n with _ | bal
    · simpa [applyOp, withdraw_of_none b n a hd] using hb
    · by_cases hlt : bal < a
      · simpa [applyOp, withdraw_of_lt b n a bal hd hlt] using hb
      · simp only [applyOp, withdraw_of_le b n a bal hd (by omega)]
        intro p hp
        rcases mem_dictSet _ _ _ _ hp with h | h
        · have := hb _ (dictGet_some_mem _ _ _ hd)
          simp only at this ⊢
          simp [h]
          omega
        · exact hb p h
  | remove n =>
    rcases hd : dictGet b.accounts n with _ | bal
    · simpa [applyOp, remove_of_none b n hd] using hb
    · by_cases hz : bal = 0
      · subst hz
        simp only [applyOp, remove_of_zero b n hd]
        intro p hp
        exact hb p (mem_dictErase _ _ _ hp)
      · simpa [applyOp, remove_of_nonzero b n bal hd hz] using hb

/-! ### Claim theorems -/

/-- **C1.** Along every sequence of ledger calls from the fresh ledger
(counter 9999, no accounts), the numbers returned by successful
`create_account` calls are strictly increasing in issuance order (hence
pairwise distinct and never reused, removals included), and each lies
in [10000, 99999]; the counter never exceeds 99999; creation fails with
the capacity message exactly when the counter has reached 99999; and a
successful call returns the incremented counter and stores the new
account with balance 0. -/
theorem claim1_create_account_numbering (ops : List LedgerOp) :
    List.Pairwise (fun m n => m < n) (createsAlong initialBank ops) ∧
    (∀ n ∈ createsAlong initialBank ops, 10000 ≤ n ∧ n ≤ 99999) ∧
    9999 ≤ (runOps initialBank ops).last_account ∧
    (runOps initialBank ops).last_account ≤ 99999 ∧
    (∀ b : BankData, b.create_account.ret.1 = none ↔
      99999 ≤ b.last_account) ∧
    (∀ b : BankData,
      b.create_account.ret.2 =
        some "Naše banka nyní neumožňuje založení nového účtu." ↔
      99999 ≤ b.last_account) ∧
    (∀ (b : BankData) (n : Int), b.create_account.ret.1 = some n →
      n = b.last_account + 1 ∧
      b.create_account.state.get_balance n = some 0 ∧
      b.create_account.state.last_account = n) := by
  refine ⟨createsAlong_pairwise ops _, ?_, ?_, ?_, ?_, ?_, ?_⟩
  · intro n hn
    have h1 := createsAlong_gt ops initialBank n hn
    have h2 := createsAlong_le ops initialBank (by norm_num [initialBank]) n hn
    simp only [initialBank] at h1
    exact ⟨by omega, h2⟩
  · have := runOps_last_le ops initialBank
    simpa [initialBank] using this
  · exact runOps_last_le99999 ops initialBank (by norm_num [initialBank])
  · intro b
    by_cases h : 99999 ≤ b.last_account
    · simp [create_account_of_ge b h, h]
    · simp [create_account_of_lt b (by omega), h]
  · intro b
    by_cases h : 99999 ≤ b.last_account
    · simp [create_account_of_ge b h, h]
    · simp [create_account_of_lt b (by omega), h]
  · intro b n h
    by_cases hc : 99999 ≤ b.last_account
    · rw [create_account_of_ge b hc] at h
      simp at h
    · rw [create_account_of_lt b (by omega)] at h
      simp at h
      subst h
      rw [create_account_of_lt b (by omega)]
      refine ⟨rfl, ?_, rfl⟩
      show dictGet (dictSet b.accounts (b.last_account + 1) 0)
        (b.last_account + 1) = some 0
      exact dictGet_dictSet_self _ _ _

theorem claim1_create_account_numbering_witness :
    (10000 : Int) ∈ createsAlong initialBank [LedgerOp.create] ∧
    10000 ≤ (10000 : Int) ∧ (10000 : Int) ≤ 99999 :=
  ⟨by decide,
    (claim1_create_account_numbering [LedgerOp.create]).2.1 10000 (by decide)⟩

/-- **C2.** `withdraw` on an existing account errors with the
insufficient-funds message and leaves the state (and the balance)
unchanged whenever the amount exceeds the balance; otherwise it
succeeds and the balance decreases by exactly the amount; and along any
sequence of ledger calls with non-negative amounts, all balances stay
non-negative (in particular from the fresh ledger). -/
theorem claim2_withdraw_safety :
    (∀ (b : BankData) (n a bal : Int), b.get_balance n = some bal →
      bal < a →
      (b.withdraw n a).ret = some "Není dostatek finančních prostředků." ∧
      (b.withdraw n a).state = b ∧
      (b.withdraw n a).state.get_balance n = some bal) ∧
    (∀ (b : BankData) (n a bal : Int), b.get_balance n = some bal →
      a ≤ bal →
      (b.withdraw n a).ret = none ∧
      (b.withdraw n a).state.get_balance n = some (bal - a)) ∧
    (∀ (ops : List LedgerOp) (b : BankData), nonnegAmounts ops = true →
      BalancesNonneg b → BalancesNonneg (runOps b ops)) ∧
    (∀ ops : List LedgerOp, nonnegAmounts ops = true →
      BalancesNonneg (runOps initialBank ops)) := by
  refine ⟨?_, ?_, ?_, ?_⟩
  · intro b n a bal hb hlt
    have hb' : dictGet b.accounts n = some bal := hb
    rw [withdraw_of_lt b n a bal hb' hlt]
    exact ⟨rfl, rfl, hb⟩
  · intro b n a bal hb hle
    have hb' : dictGet b.accounts n = some bal := hb
    rw [withdraw_of_le b n a bal hb' hle]
    refine ⟨rfl, ?_⟩
    show dictGet (dictSet b.accounts n (bal - a)) n = some (bal - a)
    exact dictGet_dictSet_self _ _ _
  · intro ops b hops hb
    exact runOps_balancesNonneg ops b hops hb
  · intro ops hops
    refine runOps_balancesNonneg ops initialBank hops ?_
    intro p hp
    simp [initialBank] at hp

theorem claim2_withdraw_safety_witness :
    ((⟨10000, [(10000, 5)]⟩ : BankData).withdraw 10000 7).ret =
        some "Není dostatek finančních prostředků." ∧
    ((⟨10000, [(10000, 5)]⟩ : BankData).withdraw 10000 7).state =
        ⟨10000, [(10000, 5)]⟩ ∧
    ((⟨10000, [(10000, 5)]⟩ : BankData).withdraw 10000 7).state.get_balance
        10000 = some 5 :=
  claim2_withdraw_safety.1 ⟨10000, [(10000, 5)]⟩ 10000 7 5 (by decide)
    (by decide)

/-- **C3.** `deposit` on an existing account succeeds and an immediate
`get_balance` returns the previous balance plus the amount (the counter
untouched); `deposit` on an absent account fails with the
account-not-found message and changes nothing, without saving. -/
theorem claim3_deposit_delta :
    (∀ (b : BankData) (n a bal : Int), b.get_balance n = some bal →
      (b.deposit n a).ret = none ∧
      (b.deposit n a).state.get_balance n = some (bal + a) ∧
      (b.deposit n a).state.last_account = b.last_account) ∧
    (∀ (b : BankData) (n a : Int), b.get_balance n = none →
      (b.deposit n a).ret = some "Bankovní účet neexistuje." ∧
      (b.deposit n a).state = b ∧ (b.deposit n a).saved = false) := by
  refine ⟨?_, ?_⟩
  · intro b n a bal hb
    have hb' : dictGet b.accounts n = some bal := hb
    rw [deposit_of_some b n a bal hb']
    refine ⟨rfl, ?_, rfl⟩
    show dictGet (dictSet b.accounts n (bal + a)) n = some (bal + a)
    exact dictGet_dictSet_self _ _ _
  · intro b n a hb
    have hb' : dictGet b.accounts n = none := hb
    rw [deposit_of_none b n a hb']
    exact ⟨rfl, rfl, rfl⟩

theorem claim3_deposit_delta_witness :
    ((⟨10000, [(10000, 5)]⟩ : BankData).deposit 10000 500).ret = none ∧
    ((⟨10000, [(10000, 5)]⟩ : BankData).deposit 10000 500).state.get_balance
        10000 = some 505 ∧
    ((⟨10000, [(10000, 5)]⟩ : BankData).deposit 10000
        500).state.last_account = 10000 :=
  claim3_deposit_delta.1 ⟨10000, [(10000, 5)]⟩ 10000 500 5 (by decide)

/-- **C4.** `remove_account` succeeds exactly when the account exists
with balance 0; an absent account gives the account-not-found message
and a nonzero balance the nonzero-balance message, both leaving the state
unchanged; after a successful removal the account is gone from
`get_balance`; and (for a ledger whose account numbers are bounded by
its counter, which holds in the fresh state and is preserved by every
ledger call) a removed number is never returned by a later
`create_account`. -/
theorem claim4_remove_account :
    (∀ (b : BankData) (n : Int),
      (b.remove_account n).ret = none ↔ b.get_balance n = some 0) ∧
    (∀ (b : BankData) (n : Int), b.get_balance n = none →
      (b.remove_account n).ret = some "Bankovní účet neexistuje." ∧
      (b.remove_account n).state = b) ∧
    (∀ (b : BankData) (n bal : Int), b.get_balance n = some bal →
      bal ≠ 0 →
      (b.remove_account n).ret =
        some "Nelze smazat bankovní účet na kterém jsou finance." ∧
      (b.remove_account n).state = b) ∧
    (∀ (b : BankData) (n : Int), (b.remove_account n).ret = none →
      (b.remove_account n).state.get_balance n = none) ∧
    (∀ (b : BankData) (n : Int), KeysBound b →
      (b.remove_account n).ret = none →
      ∀ ops : List LedgerOp,
        n ∉ createsAlong ((b.remove_account n).state) ops) ∧
    KeysBound initialBank ∧
    (∀ (b : BankData) (op : LedgerOp), KeysBound b →
      KeysBound (applyOp b op)) := by
  have hzero : ∀ (b : BankData) (n : Int),
      (b.remove_account n).ret = none → dictGet b.accounts n = some 0 := by
    intro b n h
    rcases hd : dictGet b.accounts n with _ | bal
    · rw [remove_of_none b n hd] at h
      simp at h
    · by_cases hz : bal = 0
      · subst hz; rfl
      · rw [remove_of_nonzero b n bal hd hz] at h
        simp at h
  refine ⟨?_, ?_, ?_, ?_, ?_, ?_, applyOp_keysBound⟩
  · intro b n
    constructor
    · intro h
      exact hzero b n h
    · intro h
      have h' : dictGet b.accounts n = some 0 := h
      rw [remove_of_zero b n h']
  · intro b n hb
    have hb' : dictGet b.accounts n = none := hb
    rw [remove_of_none b n hb']
    exact ⟨rfl, rfl⟩
  · intro b n bal hb hz
    have hb' : dictGet b.accounts n = some bal := hb
    rw [remove_of_nonzero b n bal hb' hz]
    exact ⟨rfl, rfl⟩
  · intro b n h
    have h' := hzero b n h
    rw [remove_of_zero b n h']
    show dictGet (dictErase b.accounts n) n = none
    exact dictGet_dictErase_self _ _
  · intro b n hkb h ops hmem
    have h' := hzero b n h
    have hn : n ≤ b.last_account := hkb _ (dictGet_some_mem _ _ _ h')
    rw [remove_of_zero b n h'] at hmem
    have := createsAlong_gt ops _ n hmem
    simp only at this
    omega
  · intro p hp
    simp [initialBank] at hp

theorem claim4_remove_account_witness :
    (((⟨10000, [(10000, 0)]⟩ : BankData).remove_account 10000).ret = none ↔
      (⟨10000, [(10000, 0)]⟩ : BankData).get_balance 10000 = some 0) ∧
    ((⟨10000, [(10000, 0)]⟩ : BankData).remove_account
        10000).state.get_balance 10000 = none ∧
    (10000 : Int) ∉ createsAlong
      ((⟨10000, [(10000, 0)]⟩ : BankData).remove_account 10000).state
      [LedgerOp.create] :=
  ⟨claim4_remove_account.1 ⟨10000, [(10000, 0)]⟩ 10000,
    claim4_remove_account.2.2.2.1 ⟨10000, [(10000, 0)]⟩ 10000 (by decide),
    claim4_remove_account.2.2.2.2.1 ⟨10000, [(10000, 0)]⟩ 10000
      (by intro p hp
          simp only [List.mem_singleton] at hp
          subst hp
          norm_num)
      (by decide) [LedgerOp.create]⟩

/-- **C5.** Serialising any ledger state with `save` and loading the
record into a fresh ledger reproduces exactly the same state — the same
account set, the same balance for every account and the same counter —
and on `load` a missing `last_account` field defaults to 9999 while a
missing `accounts` field defaults to the empty mapping. -/
theorem claim5_persist_roundtrip :
    (∀ b : BankData, loadStored b.save = b) ∧
    (∀ (b : BankData) (n : Int),
      (loadStored b.save).get_balance n = b.get_balance n) ∧
    (∀ b : BankData, (loadStored b.save).last_account = b.last_account) ∧
    loadStored ⟨none, none⟩ = initialBank ∧
    (∀ d : StoredData, d.last_account = none →
      (loadStored d).last_account = 9999) ∧
    (∀ d : StoredData, d.accounts = none → (loadStored d).accounts = []) := by
  refine ⟨?_, ?_, ?_, rfl, ?_, ?_⟩
  · intro b; cases b; rfl
  · intro b n; cases b; rfl
  · intro b; cases b; rfl
  · intro d h; simp [loadStored, h]
  · intro d h; simp [loadStored, h]

theorem claim5_persist_roundtrip_witness :
    (loadStored (StoredData.mk none (some [(10000, 3)]))).last_account =
      9999 ∧
    (loadStored (StoredData.mk (some 10005) none)).accounts = [] :=
  ⟨claim5_persist_roundtrip.2.2.2.2.1 (StoredData.mk none (some [(10000, 3)]))
      rfl,
    claim5_persist_roundtrip.2.2.2.2.2 (StoredData.mk (some 10005) none) rfl⟩

/-- **C9.** Whenever a mutating ledger call returns an error, the whole
ledger state is exactly as before the call and `save` was not invoked
during the call. -/
theorem claim9_error_atomicity :
    (∀ (b : BankData) (e : String), b.create_account.ret.2 = some e →
      b.create_account.state = b ∧ b.create_account.saved = false) ∧
    (∀ (b : BankData) (n a : Int) (e : String),
      (b.deposit n a).ret = some e →
      (b.deposit n a).state = b ∧ (b.deposit n a).saved = false) ∧
    (∀ (b : BankData) (n a : Int) (e : String),
      (b.withdraw n a).ret = some e →
      (b.withdraw n a).state = b ∧ (b.withdraw n a).saved = false) ∧
    (∀ (b : BankData) (n : Int) (e : String),
      (b.remove_account n).ret = some e →
      (b.remove_account n).state = b ∧
      (b.remove_account n).saved = false) := by
  refine ⟨?_, ?_, ?_, ?_⟩
  · intro b e h
    by_cases hc : 99999 ≤ b.last_account
    · rw [create_account_of_ge b hc]
      exact ⟨rfl, rfl⟩
    · rw [create_account_of_lt b (by omega)] at h
      simp at h
  · intro b n a e h
    rcases hd : dictGet b.accounts n with _ | bal
    · rw [deposit_of_none b n a hd]
      exact ⟨rfl, rfl⟩
    · rw [deposit_of_some b n a bal hd] at h
      simp at h
  · intro b n a e h
    rcases hd : dictGet b.accounts n with _ | bal
    · rw [withdraw_of_none b n a hd]
      exact ⟨rfl, rfl⟩
    · by_cases hlt : bal < a
      · rw [withdraw_of_lt b n a bal hd hlt]
        exact ⟨rfl, rfl⟩
      · rw [withdraw_of_le b n a bal hd (by omega)] at h
        simp at h
  · intro b n e h
    rcases hd : dictGet b.accounts n with _ | bal
    · rw [remove_of_none b n hd]
      exact ⟨rfl, rfl⟩
    · by_cases hz : bal = 0
      · subst hz
        rw [remove_of_zero b n hd] at h
        simp at h
      · rw [remove_of_nonzero b n bal hd hz]
        exact ⟨rfl, rfl⟩

theorem claim9_error_atomicity_witness :
    (initialBank.withdraw 10000 5).state = initialBank ∧
    (initialBank.withdraw 10000 5).saved = false :=
  claim9_error_atomicity.2.2.1 initialBank 10000 5 "Bankovní účet neexistuje."
    (by decide)

/-- **C6.** On every input line with a known verb and a wrong token
count, or (for AD/AW/AB/AR with the right count) an account spec the
parser rejects or whose IP part differs from the node's own address,
the dispatcher answers with an `ER `-prefixed response and the ledger
state is untouched: same state, and no save was performed. -/
theorem claim6_format_reject (bank_ip : String) (b : BankData)
    (line : String)
    (h : rejectedBeforeLedger bank_ip (tokensOf line) = true) :
    (∃ t, (process_command bank_ip b line).resp = "ER " ++ t) ∧
    (process_command bank_ip b line).state = b ∧
    (process_command bank_ip b line).saved = false := by
  unfold process_command
  rcases hts : tokensOf line with _ | ⟨t0, rest⟩
  · rw [hts] at h
    simp [rejectedBeforeLedger] at h
  · rw [hts] at h
    by_cases hBC : pyUpper t0 = "BC"
    · simp [rejectedBeforeLedger, hBC] at h
      rcases rest with _ | ⟨r1, rrest⟩
      · simp at h
      · have hd : dispatchTokens bank_ip b (t0 :: r1 :: rrest) =
            ⟨"ER Příkaz BC má špatný formát.", b, false⟩ := by
          simp [dispatchTokens, hBC]
        rw [hd]
        exact ⟨⟨"Příkaz BC má špatný formát.", rfl⟩, rfl, rfl⟩
    · by_cases hAC : pyUpper t0 = "AC"
      · simp [rejectedBeforeLedger, hAC] at h
        rcases rest with _ | ⟨r1, rrest⟩
        · simp at h
        · have hd : dispatchTokens bank_ip b (t0 :: r1 :: rrest) =
              ⟨"ER Příkaz AC má špatný formát.", b, false⟩ := by
            simp [dispatchTokens, hAC]
          rw [hd]
          exact ⟨⟨"Příkaz AC má špatný formát.", rfl⟩, rfl, rfl⟩
      · by_cases hAD : pyUpper t0 = "AD"
        · rcases rest with _ | ⟨spec, _ | ⟨amt, more⟩⟩
          · have hd : dispatchTokens bank_ip b [t0] =
                ⟨"ER Příkaz AD má špatný formát.", b, false⟩ := by
              simp [dispatchTokens, hAD]
            rw [hd]
            exact ⟨⟨"Příkaz AD má špatný formát.", rfl⟩, rfl, rfl⟩
          · have hd : dispatchTokens bank_ip b [t0, spec] =
                ⟨"ER Příkaz AD má špatný formát.", b, false⟩ := by
              simp [dispatchTokens, hAD]
            rw [hd]
            exact ⟨⟨"Příkaz AD má špatný formát.", rfl⟩, rfl, rfl⟩
          · rcases more with _ | ⟨m1, mrest⟩
            · simp [rejectedBeforeLedger, hAD] at h
              cases hp : parse_account_spec spec with
              | error err =>
                have hd : dispatchTokens bank_ip b [t0, spec, amt] =
                    ⟨"ER " ++ err, b, false⟩ := by
                  simp [dispatchTokens, hAD, hp]
                rw [hd]
                exact ⟨⟨err, rfl⟩, rfl, rfl⟩
              | ok p =>
                obtain ⟨n, ipp⟩ := p
                rw [hp] at h
                simp at h
                have hd : dispatchTokens bank_ip b [t0, spec, amt] =
                    ⟨"ER Banka neodpovídá.", b, false⟩ := by
                  simp [dispatchTokens, hAD, hp, h]
                rw [hd]
                exact ⟨⟨"Banka neodpovídá.", rfl⟩, rfl, rfl⟩
            · have hd : dispatchTokens bank_ip b
                  (t0 :: spec :: amt :: m1 :: mrest) =
                  ⟨"ER Příkaz AD má špatný formát.", b, false⟩ := by
                simp [dispatchTokens, hAD]
              rw [hd]
              exact ⟨⟨"Příkaz AD má špatný formát.", rfl⟩, rfl, rfl⟩
        · by_cases hAW : pyUpper t0 = "AW"
          · rcases rest with _ | ⟨spec, _ | ⟨amt, more⟩⟩
            · have hd : dispatchTokens bank_ip b [t0] =
                  ⟨"ER Příkaz AW má špatný formát.", b, false⟩ := by
                simp [dispatchTokens, hAW]
              rw [hd]
              exact ⟨⟨"Příkaz AW má špatný formát.", rfl⟩, rfl, rfl⟩
            · have hd : dispatchTokens bank_ip b [t0, spec] =
                  ⟨"ER Příkaz AW má špatný formát.", b, false⟩ := by
                simp [dispatchTokens, hAW]
              rw [hd]
              exact ⟨⟨"Příkaz AW má špatný formát.", rfl⟩, rfl, rfl⟩
            · rcases more with _ | ⟨m1, mrest⟩
              · simp [rejectedBeforeLedger, hAW] at h
                cases hp : parse_account_spec spec with
                | error err =>
                  have hd : dispatchTokens bank_ip b [t0, spec, amt] =
                      ⟨"ER " ++ err, b, false⟩ := by
                    simp [dispatchTokens, hAW, hp]
                  rw [hd]
                  exact ⟨⟨err, rfl⟩, rfl, rfl⟩
                | ok p =>
                  obtain ⟨n, ipp⟩ := p
                  rw [hp] at h
                  simp at h
                  have hd : dispatchTokens bank_ip b [t0, spec, amt] =
                      ⟨"ER Banka neodpovídá.", b, false⟩ := by
                    simp [dispatchTokens, hAW, hp, h]
                  rw [hd]
                  exact ⟨⟨"Banka neodpovídá.", rfl⟩, rfl, rfl⟩
              · have hd : dispatchTokens bank_ip b
                    (t0 :: spec :: amt :: m1 :: mrest) =
                    ⟨"ER Příkaz AW má špatný formát.", b, false⟩ := by
                  simp [dispatchTokens, hAW]
                rw [hd]
                exact ⟨⟨"Příkaz AW má špatný formát.", rfl⟩, rfl, rfl⟩
          · by_cases hAB : pyUpper t0 = "AB"
            · rcases rest with _ | ⟨spec, more⟩
              · have hd : dispatchTokens bank_ip b [t0] =
                    ⟨"ER Příkaz AB má špatný formát.", b, false⟩ := by
                  simp [dispatchTokens, hAB]
                rw [hd]
                exact ⟨⟨"Příkaz AB má špatný formát.", rfl⟩, rfl, rfl⟩
              · rcases more with _ | ⟨m1, mrest⟩
                · simp [rejectedBeforeLedger, hAB] at h
                  cases hp : parse_account_spec spec with
                  | error err =>
                    have hd : dispatchTokens bank_ip b [t0, spec] =
                        ⟨"ER " ++ err, b, false⟩ := by
                      simp [dispatchTokens, hAB, hp]
                    rw [hd]
                    exact ⟨⟨err, rfl⟩, rfl, rfl⟩
                  | ok p =>
                    obtain ⟨n, ipp⟩ := p
                    rw [hp] at h
                    simp at h
                    have hd : dispatchTokens bank_ip b [t0, spec] =
                        ⟨"ER Banka neodpovídá.", b, false⟩ := by
                      simp [dispatchTokens, hAB, hp, h]
                    rw [hd]
                    exact ⟨⟨"Banka neodpovídá.", rfl⟩, rfl, rfl⟩
                · have hd : dispatchTokens bank_ip b
                      (t0 :: spec :: m1 :: mrest) =
                      ⟨"ER Příkaz AB má špatný formát.", b, false⟩ := by
                    simp [dispatchTokens, hAB]
                  rw [hd]
                  exact ⟨⟨"Příkaz AB má špatný formát.", rfl⟩, rfl, rfl⟩
            · by_cases hAR : pyUpper t0 = "AR"
              · rcases rest with _ | ⟨spec, more⟩
                · have hd : dispatchTokens bank_ip b [t0] =
                      ⟨"ER Příkaz AR má špatný formát.", b, false⟩ := by
                    simp [dispatchTokens, hAR]
                  rw [hd]
                  exact ⟨⟨"Příkaz AR má špatný formát.", rfl⟩, rfl, rfl⟩
                · rcases more with _ | ⟨m1, mrest⟩
                  · simp [rejectedBeforeLedger, hAR] at h
                    cases hp : parse_account_spec spec with
                    | error err =>
                      have hd : dispatchTokens bank_ip b [t0, spec] =
                          ⟨"ER " ++ err, b, false⟩ := by
                        simp [dispatchTokens, hAR, hp]
                      rw [hd]
                      exact ⟨⟨err, rfl⟩, rfl, rfl⟩
                    | ok p =>
                      obtain ⟨n, ipp⟩ := p
                      rw [hp] at h
                      simp at h
                      have hd : dispatchTokens bank_ip b [t0, spec] =
                          ⟨"ER Banka neodpovídá.", b, false⟩ := by
                        simp [dispatchTokens, hAR, hp, h]
                      rw [hd]
                      exact ⟨⟨"Banka neodpovídá.", rfl⟩, rfl, rfl⟩
                  · have hd : dispatchTokens bank_ip b
                        (t0 :: spec :: m1 :: mrest) =
                        ⟨"ER Příkaz AR má špatný formát.", b, false⟩ := by
                      simp [dispatchTokens, hAR]
                    rw [hd]
                    exact ⟨⟨"Příkaz AR má špatný formát.", rfl⟩, rfl, rfl⟩
              · by_cases hBA : pyUpper t0 = "BA"
                · simp [rejectedBeforeLedger, hBA] at h
                  rcases rest with _ | ⟨r1, rrest⟩
                  · simp at h
                  · have hd : dispatchTokens bank_ip b (t0 :: r1 :: rrest) =
                        ⟨"ER Příkaz BA má špatný formát.", b, false⟩ := by
                      simp [dispatchTokens, hBA]
                    rw [hd]
                    exact ⟨⟨"Příkaz BA má špatný formát.", rfl⟩, rfl, rfl⟩
                · by_cases hBN : pyUpper t0 = "BN"
                  · simp [rejectedBeforeLedger, hBN] at h
                    rcases rest with _ | ⟨r1, rrest⟩
                    · simp at h
                    · have hd : dispatchTokens bank_ip b
                          (t0 :: r1 :: rrest) =
                          ⟨"ER Příkaz BN má špatný formát.", b, false⟩ := by
                        simp [dispatchTokens, hBN]
                      rw [hd]
                      exact ⟨⟨"Příkaz BN má špatný formát.", rfl⟩, rfl, rfl⟩
                  · simp [rejectedBeforeLedger, hBC, hAC, hAD, hAW, hAB,
                      hAR, hBA, hBN] at h

theorem claim6_format_reject_witness :
    rejectedBeforeLedger "1.2.3.4" (tokensOf "AD 123/1.2.3.4 5") = true ∧
    (∃ t, (process_command "1.2.3.4" initialBank
        "AD 123/1.2.3.4 5").resp = "ER " ++ t) ∧
    (process_command "1.2.3.4" initialBank "AD 123/1.2.3.4 5").state =
      initialBank ∧
    (process_command "1.2.3.4" initialBank "AD 123/1.2.3.4 5").saved =
      false :=
  ⟨by decide,
    claim6_format_reject "1.2.3.4" initialBank "AD 123/1.2.3.4 5"
      (by decide)⟩

/-- **C7.** For an AD or AW line whose account spec parses to this
bank's own address, an amount token that `int()` rejects, or that
denotes a negative value, draws the amount-format error response with
the ledger untouched and unsaved; and when the amount parses as a
non-negative value the dispatcher's result is exactly the rendering of
the corresponding `deposit`/`withdraw` call — so the ledger is only
ever invoked with a non-negative amount. -/
theorem claim7_amount_validation (bank_ip : String) (b : BankData)
    (line t0 spec amt : String) (n : Int)
    (htok : tokensOf line = [t0, spec, amt])
    (hverb : pyUpper t0 = "AD" ∨ pyUpper t0 = "AW")
    (hspec : parse_account_spec spec = .ok (n, bank_ip)) :
    ((pyInt amt = none ∨ (∃ a, pyInt amt = some a ∧ a < 0)) →
      process_command bank_ip b line =
        ⟨"ER číslo bankovního účtu a částka není ve správném formátu.",
          b, false⟩) ∧
    (∀ a : Int, pyInt amt = some a → 0 ≤ a →
      process_command bank_ip b line =
        (if pyUpper t0 = "AD" then
          match (b.deposit n a).ret with
          | some err => ⟨"ER " ++ err, (b.deposit n a).state,
              (b.deposit n a).saved⟩
          | none => ⟨"AD", (b.deposit n a).state, (b.deposit n a).saved⟩
        else
          match (b.withdraw n a).ret with
          | some err => ⟨"ER " ++ err, (b.withdraw n a).state,
              (b.withdraw n a).saved⟩
          | none => ⟨"AW", (b.withdraw n a).state,
              (b.withdraw n a).saved⟩)) := by
  unfold process_command
  rw [htok]
  constructor
  · intro ha
    rcases hverb with hv | hv
    · rcases ha with ha | ⟨a, ha, hneg⟩
      · simp [dispatchTokens, hv, hspec, ha]
      · simp [dispatchTokens, hv, hspec, ha, hneg]
    · rcases ha with ha | ⟨a, ha, hneg⟩
      · simp [dispatchTokens, hv, hspec, ha]
      · simp [dispatchTokens, hv, hspec, ha, hneg]
  · intro a ha hnn
    have hneg : ¬ (a < 0) := by omega
    rcases hverb with hv | hv
    · rw [if_pos hv]
      rcases hr : (b.deposit n a).ret with _ | e <;>
        simp [dispatchTokens, hv, hspec, ha, hneg, hr]
    · have hne : pyUpper t0 ≠ "AD" := by rw [hv]; decide
      rw [if_neg hne]
      rcases hr : (b.withdraw n a).ret with _ | e <;>
        simp [dispatchTokens, hv, hspec, ha, hneg, hr]

theorem claim7_amount_validation_witness :
    process_command "1.2.3.4" initialBank "AW 10000/1.2.3.4 -1" =
      ⟨"ER číslo bankovního účtu a částka není ve správném formátu.",
        initialBank, false⟩ :=
  (claim7_amount_validation "1.2.3.4" initialBank "AW 10000/1.2.3.4 -1"
      "AW" "10000/1.2.3.4" "-1" 10000 (by decide) (Or.inr (by decide))
      rfl).1
    (Or.inr ⟨-1, by decide, by decide⟩)

theorem no_newline_append (s t : String) (hs : '\n' ∉ s.data)
    (ht : '\n' ∉ t.data) : '\n' ∉ (s ++ t).data := by
  rw [data_append]
  intro hm
  rcases List.mem_append.mp hm with hm | hm
  · exact hs hm
  · exact ht hm

theorem parse_account_spec_err (s e : String)
    (h : parse_account_spec s = .error e) :
    e = "Formát čísla účtu není správný." ∨
    e = "Formát IP adresy není správný." := by
  unfold parse_account_spec at h
  rcases hps : pySplitChar s '/' with _ | ⟨a1, _ | ⟨a2, arest⟩⟩
  · rw [hps] at h
    simp at h
    exact Or.inl h.symm
  · rw [hps] at h
    simp at h
    exact Or.inl h.symm
  · rcases arest with _ | ⟨a3, amore⟩
    · rw [hps] at h
      simp only at h
      rcases hpi : pyInt a1 with _ | v
      · rw [hpi] at h
        simp at h
        exact Or.inl h.symm
      · rw [hpi] at h
        simp only at h
        split at h
        · simp at h
          exact Or.inl h.symm
        · split at h
          · simp at h
            exact Or.inr h.symm
          · simp at h
    · rw [hps] at h
      simp at h
      exact Or.inl h.symm

/-- An `ER `-prefixed result with a newline-free reason satisfies the
two per-response guarantees of claim C8. -/
theorem er_leaf (bank_ip : String) (r : CmdResult) (t : String)
    (hr : r.resp = "ER " ++ t) (ht : '\n' ∉ t.data) :
    '\n' ∉ r.resp.data ∧
      ((∃ u, r.resp = "ER " ++ u) ∨ successForm bank_ip r.resp) := by
  refine ⟨?_, Or.inl ⟨t, hr⟩⟩
  rw [hr]
  exact no_newline_append "ER " t (by decide) ht

/-- **C8.** On every input line the dispatcher returns exactly one
response (the embedding is a total function); assuming the node's own
address contains no newline, the response contains no embedded newline;
and every response is either `ER `-prefixed or one of the dispatcher's
success forms. -/
theorem claim8_dispatch_total (bank_ip : String) (b : BankData)
    (line : String) (hip : '\n' ∉ bank_ip.data) :
    '\n' ∉ (process_command bank_ip b line).resp.data ∧
    ((∃ t, (process_command bank_ip b line).resp = "ER " ++ t) ∨
      successForm bank_ip (process_command bank_ip b line).resp) := by
  unfold process_command
  rcases hts : tokensOf line with _ | ⟨t0, rest⟩
  · exact er_leaf bank_ip _ "Prázdný příkaz." rfl (by decide)
  · by_cases hBC : pyUpper t0 = "BC"
    · rcases rest with _ | ⟨r1, rrest⟩
      · have hd : dispatchTokens bank_ip b [t0] =
            ⟨"BC " ++ bank_ip, b, false⟩ := by
          simp [dispatchTokens, hBC]
        rw [hd]
        refine ⟨no_newline_append "BC " bank_ip (by decide) hip, Or.inr ?_⟩
        exact Or.inr (Or.inr (Or.inr (Or.inl rfl)))
      · have hd : dispatchTokens bank_ip b (t0 :: r1 :: rrest) =
            ⟨"ER Příkaz BC má špatný formát.", b, false⟩ := by
          simp [dispatchTokens, hBC]
        rw [hd]
        exact er_leaf bank_ip _ "Příkaz BC má špatný formát." rfl (by decide)
    · by_cases hAC : pyUpper t0 = "AC"
      · rcases rest with _ | ⟨r1, rrest⟩
        · by_cases hc : 99999 ≤ b.last_account
          · have hd : dispatchTokens bank_ip b [t0] =
                ⟨"ER Naše banka nyní neumožňuje založení nového účtu.",
                  b, false⟩ := by
              simp [dispatchTokens, hAC, create_account_of_ge b hc]
            rw [hd]
            exact er_leaf bank_ip _
              "Naše banka nyní neumožňuje založení nového účtu." rfl
              (by decide)
          · have hd : dispatchTokens bank_ip b [t0] =
                ⟨"AC " ++ pyStrOptInt (some (b.last_account + 1)) ++ "/" ++
                    bank_ip,
                  ⟨b.last_account + 1,
                    dictSet b.accounts (b.last_account + 1) 0⟩, true⟩ := by
              simp [dispatchTokens, hAC, create_account_of_lt b (by omega)]
            rw [hd]
            constructor
            · exact no_newline_append _ bank_ip
                (no_newline_append _ "/"
                  (no_newline_append "AC " _ (by decide)
                    (pyStrOptInt_no_newline _)) (by decide)) hip
            · exact Or.inr (Or.inr (Or.inr (Or.inr (Or.inr (Or.inl
                ⟨some (b.last_account + 1), rfl⟩)))))
        · have hd : dispatchTokens bank_ip b (t0 :: r1 :: rrest) =
              ⟨"ER Příkaz AC má špatný formát.", b, false⟩ := by
            simp [dispatchTokens, hAC]
          rw [hd]
          exact er_leaf bank_ip _ "Příkaz AC má špatný formát." rfl
            (by decide)
      · by_cases hAD : pyUpper t0 = "AD"
        · rcases rest with _ | ⟨spec, _ | ⟨amt, more⟩⟩
          · have hd : dispatchTokens bank_ip b [t0] =
                ⟨"ER Příkaz AD má špatný formát.", b, false⟩ := by
              simp [dispatchTokens, hAD]
            rw [hd]
            exact er_leaf bank_ip _ "Příkaz AD má špatný formát." rfl
              (by decide)
          · have hd : dispatchTokens bank_ip b [t0, spec] =
                ⟨"ER Příkaz AD má špatný formát.", b, false⟩ := by
              simp [dispatchTokens, hAD]
            rw [hd]
            exact er_leaf bank_ip _ "Příkaz AD má špatný formát." rfl
              (by decide)
          · rcases more with _ | ⟨m1, mrest⟩
            · cases hp : parse_account_spec spec with
              | error err =>
                have hd : dispatchTokens bank_ip b [t0, spec, amt] =
                    ⟨"ER " ++ err, b, false⟩ := by
                  simp [dispatchTokens, hAD, hp]
                rw [hd]
                rcases parse_account_spec_err spec err hp with he | he <;>
                  (subst he; exact er_leaf bank_ip _ _ rfl (by decide))
              | ok p =>
                obtain ⟨n, ipp⟩ := p
                by_cases hbm : ipp = bank_ip
                · subst hbm
                  rcases hpi : pyInt amt with _ | a
                  · have hd : dispatchTokens ipp b [t0, spec, amt] =
                        ⟨"ER číslo bankovního účtu a částka není ve správném formátu.",
                          b, false⟩ := by
                      simp [dispatchTokens, hAD, hp, hpi]
                    rw [hd]
                    exact er_leaf ipp _
                      "číslo bankovního účtu a částka není ve správném formátu."
                      rfl (by decide)
                  · by_cases hneg : a < 0
                    · have hd : dispatchTokens ipp b [t0, spec, amt] =
                          ⟨"ER číslo bankovního účtu a částka není ve správném formátu.",
                            b, false⟩ := by
                        simp [dispatchTokens, hAD, hp, hpi, hneg]
                      rw [hd]
                      exact er_leaf ipp _
                        "číslo bankovního účtu a částka není ve správném formátu."
                        rfl (by decide)
                    · rcases hdg : dictGet b.accounts n with _ | bal
                      · have hd : dispatchTokens ipp b [t0, spec, amt] =
                            ⟨"ER Bankovní účet neexistuje.", b, false⟩ := by
                          simp [dispatchTokens, hAD, hp, hpi, hneg,
                            deposit_of_none b n a hdg]
                        rw [hd]
                        exact er_leaf ipp _ "Bankovní účet neexistuje." rfl
                          (by decide)
                      · have hd : dispatchTokens ipp b [t0, spec, amt] =
                            ⟨"AD", ⟨b.last_account,
                              dictSet b.accounts n (bal + a)⟩, true⟩ := by
                          simp [dispatchTokens, hAD, hp, hpi, hneg,
                            deposit_of_some b n a bal hdg]
                        rw [hd]
                        refine ⟨?_, Or.inr (Or.inl rfl)⟩
                        show '\n' ∉ ("AD" : String).data
                        decide
                · have hd : dispatchTokens bank_ip b [t0, spec, amt] =
                      ⟨"ER Banka neodpovídá.", b, false⟩ := by
                    simp [dispatchTokens, hAD, hp, hbm]
                  rw [hd]
                  exact er_leaf bank_ip _ "Banka neodpovídá." rfl (by decide)
            · have hd : dispatchTokens bank_ip b
                  (t0 :: spec :: amt :: m1 :: mrest) =
                  ⟨"ER Příkaz AD má špatný formát.", b, false⟩ := by
                simp [dispatchTokens, hAD]
              rw [hd]
              exact er_leaf bank_ip _ "Příkaz AD má špatný formát." rfl
                (by decide)
        · by_cases hAW : pyUpper t0 = "AW"
          · rcases rest with _ | ⟨spec, _ | ⟨amt, more⟩⟩
            · have hd : dispatchTokens bank_ip b [t0] =
                  ⟨"ER Příkaz AW má špatný formát.", b, false⟩ := by
                simp [dispatchTokens, hAW]
              rw [hd]
              exact er_leaf bank_ip _ "Příkaz AW má špatný formát." rfl
                (by decide)
            · have hd : dispatchTokens bank_ip b [t0, spec] =
                  ⟨"ER Příkaz AW má špatný formát.", b, false⟩ := by
                simp [dispatchTokens, hAW]
              rw [hd]
              exact er_leaf bank_ip _ "Příkaz AW má špatný formát." rfl
                (by decide)
            · rcases more with _ | ⟨m1, mrest⟩
              · cases hp : parse_account_spec spec with
                | error err =>
                  have hd : dispatchTokens bank_ip b [t0, spec, amt] =
                      ⟨"ER " ++ err, b, false⟩ := by
                    simp [dispatchTokens, hAW, hp]
                  rw [hd]
                  rcases parse_account_spec_err spec err hp with he | he <;>
                    (subst he; exact er_leaf bank_ip _ _ rfl (by decide))
                | ok p =>
                  obtain ⟨n, ipp⟩ := p
                  by_cases hbm : ipp = bank_ip
                  · subst hbm
                    rcases hpi : pyInt amt with _ | a
                    · have hd : dispatchTokens ipp b [t0, spec, amt] =
                          ⟨"ER číslo bankovního účtu a částka není ve správném formátu.",
                            b, false⟩ := by
                        simp [dispatchTokens, hAW, hp, hpi]
                      rw [hd]
                      exact er_leaf ipp _
                        "číslo bankovního účtu a částka není ve správném formátu."
                        rfl (by decide)
                    · by_cases hneg : a < 0
                      · have hd : dispatchTokens ipp b [t0, spec, amt] =
                            ⟨"ER číslo bankovního účtu a částka není ve správném formátu.",
                              b, false⟩ := by
                          simp [dispatchTokens, hAW, hp, hpi, hneg]
                        rw [hd]
                        exact er_leaf ipp _
                          "číslo bankovního účtu a částka není ve správném formátu."
                          rfl (by decide)
                      · rcases hdg : dictGet b.accounts n with _ | bal
                        · have hd : dispatchTokens ipp b [t0, spec, amt] =
                              ⟨"ER Bankovní účet neexistuje.", b, false⟩ := by
                            simp [dispatchTokens, hAW, hp, hpi, hneg,
                              withdraw_of_none b n a hdg]
                          rw [hd]
                          exact er_leaf ipp _ "Bankovní účet neexistuje."
                            rfl (by decide)
                        · by_cases hlt : bal < a
                          · have hd : dispatchTokens ipp b [t0, spec, amt] =
                                ⟨"ER Není dostatek finančních prostředků.",
                                  b, false⟩ := by
                              simp [dispatchTokens, hAW, hp, hpi, hneg,
                                withdraw_of_lt b n a bal hdg hlt]
                            rw [hd]
                            exact er_leaf ipp _
                              "Není dostatek finančních prostředků." rfl
                              (by decide)
                          · have hd : dispatchTokens ipp b [t0, spec, amt] =
                                ⟨"AW", ⟨b.last_account,
                                  dictSet b.accounts n (bal - a)⟩,
                                  true⟩ := by
                              simp [dispatchTokens, hAW, hp, hpi, hneg,
                                withdraw_of_le b n a bal hdg (by omega)]
                            rw [hd]
                            refine ⟨?_, Or.inr (Or.inr (Or.inl rfl))⟩
                            show '\n' ∉ ("AW" : String).data
                            decide
                  · have hd : dispatchTokens bank_ip b [t0, spec, amt] =
                        ⟨"ER Banka neodpovídá.", b, false⟩ := by
                      simp [dispatchTokens, hAW, hp, hbm]
                    rw [hd]
                    exact er_leaf bank_ip _ "Banka neodpovídá." rfl
                      (by decide)
              · have hd : dispatchTokens bank_ip b
                    (t0 :: spec :: amt :: m1 :: mrest) =
                    ⟨"ER Příkaz AW má špatný formát.", b, false⟩ := by
                  simp [dispatchTokens, hAW]
                rw [hd]
                exact er_leaf bank_ip _ "Příkaz AW má špatný formát." rfl
                  (by decide)
          · by_cases hAB : pyUpper t0 = "AB"
            · rcases rest with _ | ⟨spec, _ | ⟨m1, mrest⟩⟩
              · have hd : dispatchTokens bank_ip b [t0] =
                    ⟨"ER Příkaz AB má špatný formát.", b, false⟩ := by
                  simp [dispatchTokens, hAB]
                rw [hd]
                exact er_leaf bank_ip _ "Příkaz AB má špatný formát." rfl
                  (by decide)
              · cases hp : parse_account_spec spec with
                | error err =>
                  have hd : dispatchTokens bank_ip b [t0, spec] =
                      ⟨"ER " ++ err, b, false⟩ := by
                    simp [dispatchTokens, hAB, hp]
                  rw [hd]
                  rcases parse_account_spec_err spec err hp with he | he <;>
                    (subst he; exact er_leaf bank_ip _ _ rfl (by decide))
                | ok p =>
                  obtain ⟨n, ipp⟩ := p
                  by_cases hbm : ipp = bank_ip
                  · subst hbm
                    rcases hdg : dictGet b.accounts n with _ | bal
                    · have hd : dispatchTokens ipp b [t0, spec] =
                          ⟨"ER Bankovní účet neexistuje.", b, false⟩ := by
                        simp [dispatchTokens, hAB, hp,
                          BankData.get_balance, hdg]
                      rw [hd]
                      exact er_leaf ipp _ "Bankovní účet neexistuje." rfl
                        (by decide)
                    · have hd : dispatchTokens ipp b [t0, spec] =
                          ⟨"AB " ++ intStr bal, b, false⟩ := by
                        simp [dispatchTokens, hAB, hp,
                          BankData.get_balance, hdg]
                      rw [hd]
                      refine ⟨no_newline_append "AB " _ (by decide)
                        (intStr_no_newline bal), ?_⟩
                      exact Or.inr (Or.inr (Or.inr (Or.inr (Or.inr (Or.inr
                        (Or.inl ⟨bal, rfl⟩))))))
                  · have hd : dispatchTokens bank_ip b [t0, spec] =
                        ⟨"ER Banka neodpovídá.", b, false⟩ := by
                      simp [dispatchTokens, hAB, hp, hbm]
                    rw [hd]
                    exact er_leaf bank_ip _ "Banka neodpovídá." rfl
                      (by decide)
              · have hd : dispatchTokens bank_ip b
                    (t0 :: spec :: m1 :: mrest) =
                    ⟨"ER Příkaz AB má špatný formát.", b, false⟩ := by
                  simp [dispatchTokens, hAB]
                rw [hd]
                exact er_leaf bank_ip _ "Příkaz AB má špatný formát." rfl
                  (by decide)
            · by_cases hAR : pyUpper t0 = "AR"
              · rcases rest with _ | ⟨spec, _ | ⟨m1, mrest⟩⟩
                · have hd : dispatchTokens bank_ip b [t0] =
                      ⟨"ER Příkaz AR má špatný formát.", b, false⟩ := by
                    simp [dispatchTokens, hAR]
                  rw [hd]
                  exact er_leaf bank_ip _ "Příkaz AR má špatný formát." rfl
                    (by decide)
                · cases hp : parse_account_spec spec with
                  | error err =>
                    have hd : dispatchTokens bank_ip b [t0, spec] =
                        ⟨"ER " ++ err, b, false⟩ := by
                      simp [dispatchTokens, hAR, hp]
                    rw [hd]
                    rcases parse_account_spec_err spec err hp with
                      he | he <;>
                      (subst he; exact er_leaf bank_ip _ _ rfl (by decide))
                  | ok p =>
                    obtain ⟨n, ipp⟩ := p
                    by_cases hbm : ipp = bank_ip
                    · subst hbm
                      rcases hdg : dictGet b.accounts n with _ | bal
                      · have hd : dispatchTokens ipp b [t0, spec] =
                            ⟨"ER Bankovní účet neexistuje.", b, false⟩ := by
                          simp [dispatchTokens, hAR, hp,
                            remove_of_none b n hdg]
                        rw [hd]
                        exact er_leaf ipp _ "Bankovní účet neexistuje." rfl
                          (by decide)
                      · by_cases hz : bal = 0
                        · subst hz
                          have hd : dispatchTokens ipp b [t0, spec] =
                              ⟨"AR", ⟨b.last_account,
                                dictErase b.accounts n⟩, true⟩ := by
                            simp [dispatchTokens, hAR, hp,
                              remove_of_zero b n hdg]
                          rw [hd]
                          refine ⟨?_,
                            Or.inr (Or.inr (Or.inr (Or.inl rfl)))⟩
                          show '\n' ∉ ("AR" : String).data
                          decide
                        · have hd : dispatchTokens ipp b [t0, spec] =
                              ⟨"ER Nelze smazat bankovní účet na kterém jsou finance.",
                                b, false⟩ := by
                            simp [dispatchTokens, hAR, hp,
                              remove_of_nonzero b n bal hdg hz]
                          rw [hd]
                          exact er_leaf ipp _
                            "Nelze smazat bankovní účet na kterém jsou finance."
                            rfl (by decide)
                    · have hd : dispatchTokens bank_ip b [t0, spec] =
                          ⟨"ER Banka neodpovídá.", b, false⟩ := by
                        simp [dispatchTokens, hAR, hp, hbm]
                      rw [hd]
                      exact er_leaf bank_ip _ "Banka neodpovídá." rfl
                        (by decide)
                · have hd : dispatchTokens bank_ip b
                      (t0 :: spec :: m1 :: mrest) =
                      ⟨"ER Příkaz AR má špatný formát.", b, false⟩ := by
                    simp [dispatchTokens, hAR]
                  rw [hd]
                  exact er_leaf bank_ip _ "Příkaz AR má špatný formát." rfl
                    (by decide)
              · by_cases hBA : pyUpper t0 = "BA"
                · rcases rest with _ | ⟨r1, rrest⟩
                  · have hd : dispatchTokens bank_ip b [t0] =
                        ⟨"BA " ++ intStr b.total_amount, b, false⟩ := by
                      simp [dispatchTokens, hBA]
                    rw [hd]
                    refine ⟨no_newline_append "BA " _ (by decide)
                      (intStr_no_newline _), ?_⟩
                    exact Or.inr (Or.inr (Or.inr (Or.inr (Or.inr (Or.inr
                      (Or.inr (Or.inl ⟨b.total_amount, rfl⟩)))))))
                  · have hd : dispatchTokens bank_ip b (t0 :: r1 :: rrest) =
                        ⟨"ER Příkaz BA má špatný formát.", b, false⟩ := by
                      simp [dispatchTokens, hBA]
                    rw [hd]
                    exact er_leaf bank_ip _ "Příkaz BA má špatný formát."
                      rfl (by decide)
                · by_cases hBN : pyUpper t0 = "BN"
                  · rcases rest with _ | ⟨r1, rrest⟩
                    · have hd : dispatchTokens bank_ip b [t0] =
                          ⟨"BN " ++ natStr b.number_of_clients, b,
                            false⟩ := by
                        simp [dispatchTokens, hBN]
                      rw [hd]
                      refine ⟨no_newline_append "BN " _ (by decide)
                        (natStr_no_newline _), ?_⟩
                      exact Or.inr (Or.inr (Or.inr (Or.inr (Or.inr (Or.inr
                        (Or.inr (Or.inr ⟨b.number_of_clients, rfl⟩)))))))
                    · have hd : dispatchTokens bank_ip b
                          (t0 :: r1 :: rrest) =
                          ⟨"ER Příkaz BN má špatný formát.", b, false⟩ := by
                        simp [dispatchTokens, hBN]
                      rw [hd]
                      exact er_leaf bank_ip _ "Příkaz BN má špatný formát."
                        rfl (by decide)
                  · have hd : dispatchTokens bank_ip b (t0 :: rest) =
                        ⟨"ER Neznámý příkaz.", b, false⟩ := by
                      simp [dispatchTokens, hBC, hAC, hAD, hAW, hAB, hAR,
                        hBA, hBN]
                    rw [hd]
                    exact er_leaf bank_ip _ "Neznámý příkaz." rfl
                      (by decide)

theorem claim8_dispatch_total_witness :
    '\n' ∉ (process_command "1.2.3.4" initialBank "XY").resp.data ∧
    ((∃ t, (process_command "1.2.3.4" initialBank "XY").resp =
        "ER " ++ t) ∨
      successForm "1.2.3.4" (process_command "1.2.3.4" initialBank
        "XY").resp) :=
  claim8_dispatch_total "1.2.3.4" initialBank "XY" (by decide)

/-- **C10.** Python's general `int()` conversion makes the public
interface lenient: tokens with underscores (`1_0` as 10, `10_000` as
10000) or a leading `+` (`+10000`) are accepted as numbers, so the
dispatcher performs the operation instead of returning a format
error. -/
theorem claim10_lenient_numeric_parsing :
    pyInt "1_0" = some 10 ∧
    pyInt "10_000" = some 10000 ∧
    pyInt "+10000" = some 10000 ∧
    process_command "1.2.3.4" ⟨10000, [(10000, 5)]⟩
        "AD 10000/1.2.3.4 1_0" = ⟨"AD", ⟨10000, [(10000, 15)]⟩, true⟩ ∧
    process_command "1.2.3.4" ⟨10000, [(10000, 5)]⟩
        "AD 10_000/1.2.3.4 7" = ⟨"AD", ⟨10000, [(10000, 12)]⟩, true⟩ ∧
    process_command "1.2.3.4" ⟨10000, [(10000, 5)]⟩
        "AB +10000/1.2.3.4" = ⟨"AB 5", ⟨10000, [(10000, 5)]⟩, false⟩ := by
  exact ⟨by decide, by decide, by decide, by decide, by decide, by decide⟩

end BankNode
